import Mathlib

/-!
Shallow embedding of the core of the `fuck-shit-code` analyzer:
the unit data model (src/parser/base.rs), the seven quality metrics
(src/metrics/*.rs), the per-file / directory aggregation
(src/analyzer/analyzer.rs) and the JavaScript / Python structural
extractors (src/parser/javascript.rs, src/parser/python.rs).

Floating point (`f64`) is modelled by `ℚ`; `usize` by `Nat`;
`HashMap` grouping by first-occurrence keyed association lists
(order of map iteration only affects the order of issue lists,
never any numeric field, because `ℚ` addition is commutative);
the human-readable issue strings by the structured `Issue` type.
-/

/-- Language tags (src/common/language.rs, `LanguageType`). -/
inductive LanguageType where
  | rust | go | javascript | typescript | python | java
  | cplusplus | c | csharp | php | html | css | unsupported
  deriving DecidableEq, Repr

/-- A detected function / unit (src/parser/base.rs, `Function`;
named `FunctionUnit` here because `Function` is a core Lean namespace). -/
structure FunctionUnit where
  name : String
  start_line : Nat
  end_line : Nat
  complexity : Nat
  parameters : Nat
  deriving DecidableEq, Repr

/-- Per-file parse result, the spec's `UnitModel`
(src/parser/base.rs, `BaseParseResult`). -/
structure BaseParseResult where
  functions : List FunctionUnit
  comment_lines : Nat
  total_lines : Nat
  language : LanguageType
  deriving DecidableEq, Repr

/-- Structured stand-ins for the issue strings the metrics push
(the Rust code formats localized text; only the data matters here). -/
inductive Issue where
  | crExtremelyLow (ratio : ℚ)
  | crLow (ratio : ℚ)
  | flExtremeLong (name : String) (lines : Nat)
  | flVeryLong (name : String) (lines : Nat)
  | flLong (name : String) (lines : Nat)
  | flComplexitySevere (name : String) (c : Nat)
  | flComplexityHigh (name : String) (c : Nat)
  | flParamsExtreme (name : String) (p : Nat)
  | flParamsMany (name : String) (p : Nat)
  | ccVeryHigh (name : String) (c : Nat)
  | ccHigh (name : String) (c : Nat)
  | nmBad (name : String)
  | stDeep (name : String) (d : Nat)
  | stHigh (name : String) (d : Nat)
  | ehMissing (name : String)
  | ehPoor (name : String)
  | dupHighSimilar (names : List String) (sim : ℚ)
  | dupModerate (names : List String)
  | dupNaming (base : String) (count : Nat)
  | dupParam (count : Nat)
  deriving DecidableEq, Repr

/-- Metric output (src/metrics/base.rs, `MetricResult`). -/
structure MetricResult where
  score : ℚ
  weight : ℚ
  description : String
  issues : List Issue
  deriving DecidableEq, Repr

/-- `MetricResult::new` (src/metrics/base.rs:34): clamps
`score.min(1.0).max(0.0)`. -/
def MetricResult.new (score weight : ℚ) (description : String)
    (issues : List Issue) : MetricResult :=
  { score := max (min score 1) 0, weight := weight,
    description := description, issues := issues }

/-- `end_line - start_line + 1`, the line-count expression used by the
metrics (usize subtraction; inputs produced by the extractors satisfy
`start_line ≤ end_line`). -/
def lineCount (f : FunctionUnit) : Nat := f.end_line - f.start_line + 1

def cyclomaticDescription : String := "测量函数的控制流复杂度，复杂度越高，代码越难理解和测试"

def functionLengthDescription : String := "检测代码中状态变量的管理，良好的状态管理能提高代码可维护性和可预测性"

def commentRatioDescription : String := "检测代码的注释覆盖率，良好的注释能提高代码可读性和可维护性"

def errorHandlingDescription : String := "检测代码中的错误处理情况，良好的错误处理能提高代码的健壮性"

def namingDescription : String := "检测代码中的命名规范，良好的命名能提高代码可读性"

def duplicationDescription : String := "评估代码中重复逻辑的比例，重复代码越多，越需要抽象和重构"

def structureDescription : String := "检测代码的嵌套深度和引用复杂度，评估结构清晰度"

/-- src/metrics/complexity.rs:65, `check_function_complexity`. -/
def CyclomaticComplexityMetric.check_function_complexity (f : FunctionUnit) : Option Issue :=
  if f.complexity > 15 then some (.ccVeryHigh f.name f.complexity)
  else if f.complexity > 10 then some (.ccHigh f.name f.complexity)
  else none

/-- src/metrics/complexity.rs:34, `calculate_average_complexity`. -/
def CyclomaticComplexityMetric.calculate_average_complexity
    (functions : List FunctionUnit) : ℚ × List Issue :=
  if functions.isEmpty then (0, [])
  else
    (((functions.map (fun f => (f.complexity : ℚ))).sum) / (functions.length : ℚ),
     functions.filterMap CyclomaticComplexityMetric.check_function_complexity)

/-- src/metrics/complexity.rs:88, `calculate_score`:
`(0.4 + avg * 0.1).min(1.0)`. -/
def CyclomaticComplexityMetric.calculate_score (avg : ℚ) : ℚ :=
  min (0.4 + avg * 0.1) 1

/-- src/metrics/complexity.rs:121, `CyclomaticComplexityMetric::analyze`. -/
def CyclomaticComplexityMetric.analyze (pr : BaseParseResult) : MetricResult :=
  let r := CyclomaticComplexityMetric.calculate_average_complexity pr.functions
  MetricResult.new (CyclomaticComplexityMetric.calculate_score r.1) 0.3
    cyclomaticDescription r.2

/-- Per-function issues of the function-length metric
(src/metrics/function_length.rs:45-69, loop body). -/
def flIssuesFor (f : FunctionUnit) : List Issue :=
  (if lineCount f > 120 then [Issue.flExtremeLong f.name (lineCount f)]
   else if lineCount f > 70 then [Issue.flVeryLong f.name (lineCount f)]
   else if lineCount f > 40 then [Issue.flLong f.name (lineCount f)]
   else [])
  ++ (if f.complexity > 18 then [Issue.flComplexitySevere f.name f.complexity]
      else if f.complexity > 12 then [Issue.flComplexityHigh f.name f.complexity]
      else [])
  ++ (if f.parameters > 8 then [Issue.flParamsExtreme f.name f.parameters]
      else if f.parameters > 6 then [Issue.flParamsMany f.name f.parameters]
      else [])

/-- src/metrics/function_length.rs:28, `FunctionLengthMetric::analyze`.
The three counters are incremented in mutually exclusive `else if`
branches, so they count the ranges (120,∞), (70,120], (40,70]. -/
def FunctionLengthMetric.analyze (pr : BaseParseResult) : MetricResult :=
  let functions := pr.functions
  if functions.isEmpty then ⟨0, 0.2, functionLengthDescription, []⟩
  else
    let issues := functions.foldr (fun f acc => flIssuesFor f ++ acc) []
    let total : ℚ := (functions.length : ℚ)
    let long := functions.countP (fun f => decide (40 < lineCount f ∧ lineCount f ≤ 70))
    let veryLong := functions.countP (fun f => decide (70 < lineCount f ∧ lineCount f ≤ 120))
    let extremeLong := functions.countP (fun f => decide (120 < lineCount f))
    let score := (long : ℚ) / total * 0.3 + (veryLong : ℚ) / total * 0.5
      + (extremeLong : ℚ) / total * 0.8
    let score := if score > 1 then 1 else score
    ⟨score, 0.2, functionLengthDescription, issues⟩

/-- src/metrics/comment_ratio.rs:58, `calculate_score`:
`0.9 - (ratio * 100) * 0.05`, floored at 0. -/
def CommentRatioMetric.calculate_score (ratio : ℚ) : ℚ :=
  let score := 0.9 - ratio * 100 * 0.05
  if score < 0 then 0 else score

/-- src/metrics/comment_ratio.rs:28, `CommentRatioMetric::analyze`. -/
def CommentRatioMetric.analyze (pr : BaseParseResult) : MetricResult :=
  let ratio : ℚ :=
    if pr.total_lines > 0 then (pr.comment_lines : ℚ) / (pr.total_lines : ℚ) else 0
  let issues :=
    if ratio < 0.05 then [Issue.crExtremelyLow ratio]
    else if ratio < 0.1 then [Issue.crLow ratio]
    else []
  ⟨CommentRatioMetric.calculate_score ratio, 0.15, commentRatioDescription, issues⟩

/-- src/metrics/naming.rs:59, `is_bad_name` (Rust `name.len()` is a byte
count, hence `utf8ByteSize`). -/
def NamingConventionMetric.is_bad_name (name : String) : Bool :=
  decide (name.utf8ByteSize ≤ 2) || name = "tmp" || name = "temp" || name = "xxx"
    || name = "foo" || name = "bar" || name = "test"
    || name.toList.all (fun c => c = 'x' || c = 'y' || c = 'z')

/-- src/metrics/naming.rs:71, `calculate_score`: `0.4 + bad_ratio * 10`,
capped at 1. -/
def NamingConventionMetric.calculate_score (bad_ratio : ℚ) : ℚ :=
  let score := 0.4 + bad_ratio * 10
  if score > 1 then 1 else score

/-- src/metrics/naming.rs:28, `NamingConventionMetric::analyze`. -/
def NamingConventionMetric.analyze (pr : BaseParseResult) : MetricResult :=
  let functions := pr.functions
  let issues := functions.filterMap (fun f =>
    if NamingConventionMetric.is_bad_name f.name then some (Issue.nmBad f.name) else none)
  let bad := functions.countP (fun f => NamingConventionMetric.is_bad_name f.name)
  let bad_ratio : ℚ :=
    if ¬ functions.isEmpty then (bad : ℚ) / (functions.length : ℚ) else 0
  ⟨NamingConventionMetric.calculate_score bad_ratio, 0.08, namingDescription, issues⟩

/-- `(complexity as f64 / 3.0).ceil() as usize`
(src/metrics/structure.rs:37), computed on naturals. -/
def estimatedDepth (c : Nat) : Nat := (c + 2) / 3

/-- src/metrics/structure.rs:62, `calculate_score`. -/
def StructureAnalysisMetric.calculate_score (maxd : Nat) : ℚ :=
  let nesting := if maxd > 1 then 0.4 + ((maxd : ℚ) - 1) * 0.15 else 0.4
  if nesting > 1 then 1 else nesting

/-- src/metrics/structure.rs:28, `StructureAnalysisMetric::analyze`. -/
def StructureAnalysisMetric.analyze (pr : BaseParseResult) : MetricResult :=
  let functions := pr.functions
  let maxd := (functions.map (fun f => estimatedDepth f.complexity)).foldl max 0
  let issues := functions.filterMap (fun f =>
    if estimatedDepth f.complexity > 5 then some (Issue.stDeep f.name (estimatedDepth f.complexity))
    else if estimatedDepth f.complexity > 3 then some (Issue.stHigh f.name (estimatedDepth f.complexity))
    else none)
  ⟨StructureAnalysisMetric.calculate_score maxd, 0.15, structureDescription, issues⟩

/-- src/metrics/error_handling.rs:81, `ErrorHandlingScore`. -/
structure ErrorHandlingScore where
  has_error_potential : Bool
  has_error_handling : Bool
  error_handling_quality : ℚ
  deriving DecidableEq, Repr

/-- Splitting a character list at every occurrence of `sep`
(Rust `str::split(sep)` for a one-character separator). -/
def splitOnCharAux (sep : Char) : List Char → List Char → List (List Char)
  | [], acc => [acc.reverse]
  | c :: cs, acc =>
    if c = sep then acc.reverse :: splitOnCharAux sep cs []
    else splitOnCharAux sep cs (c :: acc)

def strSplitOnChar (sep : Char) (s : String) : List String :=
  (splitOnCharAux sep s.toList []).map String.mk

/-- Rust `str::trim` (strip whitespace from both ends). -/
def trimChars (l : List Char) : List Char :=
  ((l.dropWhile Char.isWhitespace).reverse.dropWhile Char.isWhitespace).reverse

def strTrim (s : String) : String := String.mk (trimChars s.toList)

/-- Rust `str::starts_with`. -/
def strStartsWith (s p : String) : Bool := p.toList.isPrefixOf s.toList

/-- Rust `str::ends_with`. -/
def strEndsWith (s p : String) : Bool := p.toList.reverse.isPrefixOf s.toList.reverse

/-- Byte-lexicographic order on names (Rust `str::cmp`; codepoint order
coincides with UTF-8 byte order). -/
def listLexLe : List Char → List Char → Bool
  | [], _ => true
  | _ :: _, [] => false
  | a :: as, b :: bs => if a = b then listLexLe as bs else decide (a < b)

/-- `pat` occurs as a contiguous sublist of `s`. -/
def listIsInfix (pat : List Char) : List Char → Bool
  | [] => decide (pat = [])
  | c :: rest => pat.isPrefixOf (c :: rest) || listIsInfix pat rest

/-- Substring containment, Rust `str::contains`. -/
def strContains (s pat : String) : Bool := listIsInfix pat.toList s.toList

/-- src/metrics/error_handling.rs:111, `analyze_rust_error_handling`. -/
def analyze_rust_error_handling (f : FunctionUnit) : ErrorHandlingScore :=
  let has_result_return := strContains f.name "Result" || decide (f.complexity > 5)
  let has_error_handling := decide (f.complexity > 3)
  let quality : ℚ :=
    if has_error_handling then 0.8 else if has_result_return then 0.5 else 0.3
  ⟨has_result_return || decide (f.complexity > 8), has_error_handling, quality⟩

/-- src/metrics/error_handling.rs:132, `analyze_go_error_handling`. -/
def analyze_go_error_handling (f : FunctionUnit) : ErrorHandlingScore :=
  let has_error_potential := decide (f.complexity > 5)
  let has_error_handling := decide (f.complexity > 7)
  let quality : ℚ :=
    if has_error_handling then 0.7 else if has_error_potential then 0.3 else 0.5
  ⟨has_error_potential, has_error_handling, quality⟩

/-- src/metrics/error_handling.rs:153, `analyze_js_error_handling`. -/
def analyze_js_error_handling (f : FunctionUnit) : ErrorHandlingScore :=
  let has_async := strContains f.name "async" || strContains f.name "fetch"
    || strContains f.name "request"
  let has_error_potential := has_async || decide (f.complexity > 6)
  let has_error_handling := decide (f.complexity > 8)
  let quality : ℚ :=
    if has_error_handling then 0.6
    else if has_async && !has_error_handling then 0.2
    else 0.4
  ⟨has_error_potential, has_error_handling, quality⟩

/-- src/metrics/error_handling.rs:177, `analyze_python_error_handling`. -/
def analyze_python_error_handling (f : FunctionUnit) : ErrorHandlingScore :=
  let has_io_operations := strContains f.name "read" || strContains f.name "write"
    || strContains f.name "open" || strContains f.name "request"
  let has_error_potential := has_io_operations || decide (f.complexity > 6)
  let has_error_handling := decide (f.complexity > 7)
  let quality : ℚ :=
    if has_error_handling then 0.65
    else if has_io_operations && !has_error_handling then 0.15
    else 0.4
  ⟨has_error_potential, has_error_handling, quality⟩

/-- src/metrics/error_handling.rs:202, `analyze_java_error_handling`. -/
def analyze_java_error_handling (f : FunctionUnit) : ErrorHandlingScore :=
  let has_error_potential := decide (f.complexity > 5)
  let has_error_handling := decide (f.complexity > 8)
  let quality : ℚ :=
    if has_error_handling then 0.75 else if has_error_potential then 0.35 else 0.5
  ⟨has_error_potential, has_error_handling, quality⟩

/-- src/metrics/error_handling.rs:223, `analyze_c_error_handling`. -/
def analyze_c_error_handling (f : FunctionUnit) : ErrorHandlingScore :=
  let has_malloc := strContains f.name "alloc" || strContains f.name "malloc"
  let has_file_ops := strContains f.name "open" || strContains f.name "read"
    || strContains f.name "write"
  let has_error_potential := has_malloc || has_file_ops || decide (f.complexity > 6)
  let has_error_handling := decide (f.complexity > 7)
  let quality : ℚ :=
    if has_error_handling then 0.5
    else if (has_malloc || has_file_ops) && !has_error_handling then 0.1
    else 0.3
  ⟨has_error_potential, has_error_handling, quality⟩

/-- src/metrics/error_handling.rs:88, `analyze_function_error_handling`. -/
def analyze_function_error_handling (f : FunctionUnit) (language : LanguageType) :
    ErrorHandlingScore :=
  match language with
  | .rust => analyze_rust_error_handling f
  | .go => analyze_go_error_handling f
  | .javascript | .typescript => analyze_js_error_handling f
  | .python => analyze_python_error_handling f
  | .java | .csharp => analyze_java_error_handling f
  | .c | .cplusplus => analyze_c_error_handling f
  | _ => ⟨false, false, 0.5⟩

/-- src/metrics/error_handling.rs:29, `ErrorHandlingMetric::analyze`. -/
def ErrorHandlingMetric.analyze (pr : BaseParseResult) : MetricResult :=
  let functions := pr.functions
  if functions.isEmpty then ⟨0, 0.1, errorHandlingDescription, []⟩
  else
    let scored := functions.map (fun f => (f, analyze_function_error_handling f pr.language))
    let issues := scored.filterMap (fun fe =>
      if fe.2.has_error_potential && !fe.2.has_error_handling then
        some (Issue.ehMissing fe.1.name)
      else if fe.2.has_error_potential && decide (fe.2.error_handling_quality < 0.3) then
        some (Issue.ehPoor fe.1.name)
      else none)
    let total_quality := (scored.map (fun fe => fe.2.error_handling_quality)).sum
    let functions_with_errors :=
      scored.countP (fun fe => fe.2.has_error_potential && !fe.2.has_error_handling)
    let avg : ℚ :=
      if ¬ functions.isEmpty then total_quality / (functions.length : ℚ) else 0.5
    let ratio : ℚ := (functions_with_errors : ℚ) / ((max functions.length 1 : Nat) : ℚ)
    let score := (1 - avg) * 0.6 + ratio * 0.4
    ⟨score, 0.1, errorHandlingDescription, issues⟩

/-- Size bucket (src/metrics/duplication.rs:147). -/
def sizeCategory (lines : Nat) : String :=
  if lines ≤ 10 then "tiny" else if lines ≤ 30 then "small"
  else if lines ≤ 60 then "medium" else if lines ≤ 100 then "large" else "huge"

/-- Complexity bucket (src/metrics/duplication.rs:155). -/
def complexityCategory (c : Nat) : String :=
  if c ≤ 3 then "trivial" else if c ≤ 7 then "simple"
  else if c ≤ 12 then "moderate" else if c ≤ 20 then "complex" else "very_complex"

/-- Parameter bucket (src/metrics/duplication.rs:163). -/
def paramCategory (p : Nat) : String :=
  if p = 0 then "no_params" else if p = 1 then "single_param"
  else if p ≤ 3 then "few_params" else if p ≤ 5 then "several_params" else "many_params"

/-- src/metrics/duplication.rs:184, `extract_name_pattern`. -/
def extract_name_pattern (name : String) : String :=
  let has_uppercase := name.toList.any Char.isUpper
  let has_underscore := name.toList.any (fun c => c = '_')
  let head :=
    match (["get", "set", "handle", "process", "check", "validate", "init",
        "create", "update", "delete"].find?
        (fun p => p.toList.isPrefixOf name.toList)) with
    | some p => p ++ "_"
    | none => ""
  head ++ (if has_uppercase then "camel" else if has_underscore then "snake" else "flat")

/-- src/metrics/duplication.rs:142, `extract_function_pattern`. -/
def extract_function_pattern (f : FunctionUnit) : String :=
  String.intercalate ":" [sizeCategory (lineCount f), complexityCategory f.complexity,
    paramCategory f.parameters, toString (lineCount f), extract_name_pattern f.name]

/-- src/metrics/duplication.rs:131, `group_similar_functions`
(`HashMap` grouping: members per key in input order;
keys listed in first-occurrence order). -/
def group_similar_functions (functions : List FunctionUnit) :
    List (String × List FunctionUnit) :=
  ((functions.map extract_function_pattern).dedup).map
    (fun p => (p, functions.filter (fun f => extract_function_pattern f = p)))

/-- Digit-string evaluation used by `rustParseNat`. -/
def digitsVal (l : List Char) : Option Nat :=
  if l ≠ [] ∧ l.all Char.isDigit then
    some (l.foldl (fun a c => a * 10 + (c.toNat - 48)) 0)
  else none

/-- Rust `str::parse::<usize>()` (accepts an optional leading `+`). -/
def rustParseNat (s : String) : Option Nat :=
  match s.toList with
  | [] => none
  | '+' :: rest => digitsVal rest
  | l => digitsVal l

/-- src/metrics/duplication.rs:220, `calculate_similarity_score`
(the Rust `match` arms are written as an equality chain). -/
def calculate_similarity_score (pattern : String) : ℚ :=
  let parts := strSplitOnChar ':' pattern
  if parts.length < 4 then 0
  else
    let score : ℚ :=
      (if parts.getD 0 "" = "tiny" ∨ parts.getD 0 "" = "small" then 0.2
       else if parts.getD 0 "" = "medium" then 0.3 else 0.4)
      + (if parts.getD 1 "" = "trivial" then 0.1
         else if parts.getD 1 "" = "simple" then 0.2
         else if parts.getD 1 "" = "moderate" then 0.3
         else if parts.getD 1 "" = "complex" ∨ parts.getD 1 "" = "very_complex" then 0.4
         else 0)
      + (if parts.getD 2 "" ≠ "no_params" then 0.2 else 0)
      + (match rustParseNat (parts.getD 3 "") with
         | some lines => if lines > 20 then 0.2 else if lines > 10 then 0.1 else 0
         | none => 0)
    min score 1

/-- `group.sort_by(|a, b| a.name.cmp(&b.name))`
(src/metrics/duplication.rs:54; stable sort by name). -/
def sortByName (grp : List FunctionUnit) : List FunctionUnit :=
  grp.insertionSort (fun a b => listLexLe a.name.toList b.name.toList = true)

/-- Line credit of one similarity group: all members but the first, when
highly similar (src/metrics/duplication.rs:58-65). -/
def groupDupLines (pattern : String) (grp : List FunctionUnit) : Nat :=
  if grp.length > 1 ∧ calculate_similarity_score pattern > 0.7 then
    (((sortByName grp).drop 1).map lineCount).sum
  else 0

/-- Duplication-score contribution of one similarity group
(src/metrics/duplication.rs:58-83). -/
def groupScoreContribution (pattern : String) (grp : List FunctionUnit) : ℚ :=
  if grp.length > 1 then
    let s := calculate_similarity_score pattern
    if s > 0.7 then s * (grp.length : ℚ)
    else if s > 0.5 then s * 0.5 * (grp.length : ℚ)
    else 0
  else 0

/-- Issue pushed for one similarity group (src/metrics/duplication.rs:58-83). -/
def groupIssue (pattern : String) (grp : List FunctionUnit) : Option Issue :=
  if grp.length > 1 then
    let s := calculate_similarity_score pattern
    if s > 0.7 then some (.dupHighSimilar ((sortByName grp).map (fun f => f.name)) s)
    else if s > 0.5 then some (.dupModerate ((sortByName grp).map (fun f => f.name)))
    else none
  else none

/-- src/metrics/duplication.rs:281, `get_base_name` (trailing digits are
stripped first, then one known variant suffix; a result shorter than
3 bytes is discarded). -/
def get_base_name (name : String) : String :=
  let base := String.mk ((name.toList.reverse.dropWhile Char.isDigit).reverse)
  let base :=
    match (["_v2", "_v3", "_new", "_old", "_temp", "_tmp", "_copy",
        "_backup"].find? (fun suf => strEndsWith base suf)) with
    | some suf => String.mk (base.toList.take (base.toList.length - suf.length))
    | none => base
  if base.utf8ByteSize < 3 then "" else base

/-- src/metrics/duplication.rs:264, `detect_naming_pattern_duplication`. -/
def detect_naming_pattern_duplication (functions : List FunctionUnit) :
    List (String × List FunctionUnit) :=
  let cands := functions.filter (fun f =>
    get_base_name f.name ≠ "" ∧ get_base_name f.name ≠ f.name)
  let keys := (cands.map (fun f => get_base_name f.name)).dedup
  (keys.map (fun b => (b, cands.filter (fun f => get_base_name f.name = b)))).filter
    (fun g => g.2.length > 1)

/-- src/metrics/duplication.rs:302, `detect_parameter_duplication`. -/
def detect_parameter_duplication (functions : List FunctionUnit) : Nat :=
  let sigs := (functions.map (fun f => (f.parameters, f.complexity))).dedup
  ((sigs.map (fun s =>
    functions.countP (fun f => decide ((f.parameters, f.complexity) = s)))).filter
    (fun c => c > 1)).sum

/-- src/metrics/duplication.rs:29, `CodeDuplicationMetric::analyze`. -/
def CodeDuplicationMetric.analyze (pr : BaseParseResult) : MetricResult :=
  let functions := pr.functions
  if functions.length < 2 then ⟨0, 0.15, duplicationDescription, []⟩
  else
    let groups := group_similar_functions functions
    let total_lines := (functions.map lineCount).sum
    let group_issues := groups.filterMap (fun g => groupIssue g.1 g.2)
    let total_duplicated_lines := (groups.map (fun g => groupDupLines g.1 g.2)).sum
    let dup_score_groups := (groups.map (fun g => groupScoreContribution g.1 g.2)).sum
    let naming := detect_naming_pattern_duplication functions
    let naming_issues := naming.filterMap (fun g =>
      if g.2.length > 2 then some (Issue.dupNaming g.1 g.2.length) else none)
    let dup_score_naming := (naming.map (fun g =>
      if g.2.length > 2 then (0.3 : ℚ) * (g.2.length : ℚ) else 0)).sum
    let param_duplicates := detect_parameter_duplication functions
    let param_issues :=
      if param_duplicates > 3 then [Issue.dupParam param_duplicates] else []
    let dup_score_param : ℚ :=
      if param_duplicates > 3 then 0.2 * (param_duplicates : ℚ) else 0
    let duplication_score := dup_score_groups + dup_score_naming + dup_score_param
    let duplication_ratio : ℚ :=
      if total_lines > 0 then (total_duplicated_lines : ℚ) / (total_lines : ℚ) else 0
    let normalized := min (duplication_score / (functions.length : ℚ)) 1
    let score := duplication_ratio * 0.4 + normalized * 0.6
    ⟨min score 1, 0.15, duplicationDescription,
      group_issues ++ naming_issues ++ param_issues⟩

/-- The seven metric names registered by the factory
(src/metrics/mod.rs:49, `create_all_metrics`). -/
inductive MetricName where
  | cyclomaticComplexity | functionLength | commentRatio | errorHandling
  | namingConvention | codeDuplication | structureAnalysis
  deriving DecidableEq, Repr

def MetricName.all : List MetricName :=
  [.cyclomaticComplexity, .functionLength, .commentRatio, .errorHandling,
   .namingConvention, .codeDuplication, .structureAnalysis]

/-- The constant `weight()` of each metric. -/
def metricWeight : MetricName → ℚ
  | .cyclomaticComplexity => 0.3
  | .functionLength => 0.2
  | .commentRatio => 0.15
  | .errorHandling => 0.1
  | .namingConvention => 0.08
  | .codeDuplication => 0.15
  | .structureAnalysis => 0.15

/-- src/analyzer/analyzer.rs:329, `analyze_metrics`: runs all seven
metrics over one parse result (every key present). -/
def analyze_metrics (pr : BaseParseResult) : MetricName → Option MetricResult
  | .cyclomaticComplexity => some (CyclomaticComplexityMetric.analyze pr)
  | .functionLength => some (FunctionLengthMetric.analyze pr)
  | .commentRatio => some (CommentRatioMetric.analyze pr)
  | .errorHandling => some (ErrorHandlingMetric.analyze pr)
  | .namingConvention => some (NamingConventionMetric.analyze pr)
  | .codeDuplication => some (CodeDuplicationMetric.analyze pr)
  | .structureAnalysis => some (StructureAnalysisMetric.analyze pr)

/-- src/analyzer/analyzer.rs:570, `FileAnalysisData` (the metric map is
modelled as a function on the closed key set; `none` = key absent). -/
structure FileAnalysisData where
  path : String
  metrics : MetricName → Option MetricResult
  issues : List Issue
  lines : Nat

/-- src/analyzer/result.rs, `FileAnalysisResult`. -/
structure FileAnalysisResult where
  file_path : String
  file_score : ℚ
  issues : List Issue
  deriving DecidableEq

/-- src/analyzer/result.rs, `AnalysisResult`. -/
structure AnalysisResult where
  code_quality_score : ℚ
  metrics : MetricName → Option MetricResult
  files_analyzed : List FileAnalysisResult
  total_files : Nat
  total_lines : Nat
  is_empty : Bool

/-- src/analyzer/analyzer.rs:348, `calculate_score`:
`Σ score·weight / Σ weight`, or 0 when the total weight is not positive.
Summation order over map values is irrelevant in `ℚ`. -/
def calculate_score (m : MetricName → Option MetricResult) : ℚ :=
  let entries := MetricName.all.filterMap m
  let total_weight := (entries.map (fun r => r.weight)).sum
  let total_score := (entries.map (fun r => r.score * r.weight)).sum
  if total_weight > 0 then total_score / total_weight else 0

/-- src/analyzer/analyzer.rs:543, `calculate_average_metrics`: per name,
average the scores of all files that produced it, keeping the first
file's weight and description and an empty issue list. -/
def calculate_average_metrics (files : List FileAnalysisData) (n : MetricName) :
    Option MetricResult :=
  match files.filterMap (fun d => d.metrics n) with
  | [] => none
  | r :: rs => some ⟨((r :: rs).map (fun x => x.score)).sum / (((r :: rs).length : Nat) : ℚ),
      r.weight, r.description, []⟩

/-- src/analyzer/analyzer.rs:495, `aggregate_results`. -/
def aggregate_results (files : List FileAnalysisData) : AnalysisResult :=
  let files_analyzed := files.map (fun d =>
    FileAnalysisResult.mk d.path (calculate_score d.metrics) d.issues)
  { code_quality_score := calculate_score (calculate_average_metrics files),
    metrics := calculate_average_metrics files,
    files_analyzed := files_analyzed,
    total_files := files_analyzed.length,
    total_lines := (files.map (fun d => d.lines)).sum,
    is_empty := false }

/-- Inner character loop of `JavaScriptParser::find_function_end`
(src/parser/javascript.rs:201-212): `none` means the scan returned on
this line (depth hit zero after a `{` was seen); `some (d, f)` carries
the running `brace_count` and `found_first` to the next line. -/
def lineBraceScan : List Char → Int → Bool → Option (Int × Bool)
  | [], d, f => some (d, f)
  | c :: cs, d, f =>
    if c = '{' then lineBraceScan cs (d + 1) true
    else if c = '}' then
      if f ∧ d - 1 = 0 then none else lineBraceScan cs (d - 1) f
    else lineBraceScan cs d f

/-- Line loop of `JavaScriptParser::find_function_end`
(src/parser/javascript.rs:197-216); `none` = fell off the end. -/
def findEndAux : List (List Char) → Nat → Int → Bool → Option Nat
  | [], _, _, _ => none
  | l :: rest, i, d, f =>
    match lineBraceScan l d f with
    | none => some i
    | some df => findEndAux rest (i + 1) df.1 df.2

/-- src/parser/javascript.rs:197, `find_function_end` (0-based index of
the line where the brace depth returns to zero; `lines.len() - 1` if it
never does). -/
def find_function_end (lines : List String) (start : Nat) : Nat :=
  match findEndAux ((lines.drop start).map String.toList) start 0 false with
  | some i => i
  | none => lines.length - 1

/-- Number of non-overlapping occurrences of `pat` in `s`, scanning left
to right (Rust `str::matches(pat).count()`); structural fuel = `s.length`
(each step consumes at least one character). -/
def countSubAux : Nat → List Char → List Char → Nat
  | 0, _, _ => 0
  | _, [], _ => 0
  | fuel + 1, c :: rest, pat =>
    if pat ≠ [] ∧ pat.isPrefixOf (c :: rest) then
      1 + countSubAux fuel ((c :: rest).drop pat.length) pat
    else countSubAux fuel rest pat

def countSub (s pat : List Char) : Nat := countSubAux s.length s pat

/-- Occurrences of a pattern in one line. -/
def lineMatchCount (l : String) (pat : String) : Nat := countSub l.toList pat.toList

/-- Control-flow keywords counted by the JavaScript complexity heuristic
(src/parser/javascript.rs:223); each is matched as `" kw "`. -/
def jsKeywords : List String :=
  ["if", "else", "for", "while", "switch", "case", "catch"]

/-- Short-circuit / ternary operators counted as raw substrings
(src/parser/javascript.rs:226). -/
def jsOperators : List String := ["&&", "||", "?"]

/-- src/parser/javascript.rs:219, `calculate_complexity`: 1 plus, per
line, every `" kw "` occurrence and every operator occurrence. -/
def js_calculate_complexity (function_lines : List String) : Nat :=
  1 + (function_lines.map (fun l =>
    (jsKeywords.map (fun k => lineMatchCount l (" " ++ k ++ " "))).sum
    + (jsOperators.map (fun op => lineMatchCount l op)).sum)).sum

/-- The unit built for a signature matched at 0-based line index `i`
(src/parser/javascript.rs:100-113: `start_line = i + 1`,
`end_line = find_function_end + 1`, complexity over `lines[i..=end]`,
parameter count hardwired to 0). -/
def jsExtractUnitAt (lines : List String) (i : Nat) (name : String) : FunctionUnit :=
  let e := find_function_end lines i
  { name := name, start_line := i + 1, end_line := e + 1,
    complexity := js_calculate_complexity ((lines.drop i).take (e - i + 1)),
    parameters := 0 }

/-- Spec-side brace tracking, from §4.2 of the spec: "track open/close
brace depth starting from the first `{` seen on or after the signature
line; the unit ends at the line where depth returns to zero". State:
`none` = no `{` seen yet, `some d` = current depth `d`; result `none` =
depth returned to zero on this line. -/
def specLineScan : List Char → Option Int → Option (Option Int)
  | [], st => some st
  | c :: cs, st =>
    match st with
    | none => if c = '{' then specLineScan cs (some 1) else specLineScan cs none
    | some d =>
      if c = '{' then specLineScan cs (some (d + 1))
      else if c = '}' then
        (if d - 1 = 0 then none else specLineScan cs (some (d - 1)))
      else specLineScan cs (some d)

/-- Spec-side line loop for `specLineScan`. -/
def specCloseAux : List (List Char) → Nat → Option Int → Option Nat
  | [], _, _ => none
  | l :: rest, i, st =>
    match specLineScan l st with
    | none => some i
    | some st' => specCloseAux rest (i + 1) st'

/-- Spec-side: the 0-based index of the line on which the brace depth of
the stream starting at line `start` first returns to zero after the
first `{` (or `none`). -/
def specBraceCloseLine (lines : List String) (start : Nat) : Option Nat :=
  specCloseAux ((lines.drop start).map String.toList) start none

/-- The first brace character of the stream, if any, is `{` — i.e. no
stray `}` precedes the opening brace of the body. -/
def firstBraceIsOpen : List Char → Bool
  | [] => true
  | c :: cs => if c = '}' then false else if c = '{' then true else firstBraceIsOpen cs

/-- src/parser/python.rs:132, `get_indent_level`: leading spaces count 1,
tabs count 4, stop at the first other character. -/
def get_indent_level_chars : List Char → Nat
  | [] => 0
  | c :: cs =>
    if c = ' ' then 1 + get_indent_level_chars cs
    else if c = '\t' then 4 + get_indent_level_chars cs
    else 0

def get_indent_level (line : String) : Nat := get_indent_level_chars line.toList

/-- Loop of `PythonParser::find_function_end`
(src/parser/python.rs:119-129): stop at the first non-blank
non-comment line whose indentation is ≤ the base indentation. -/
def pyFindEndAux : List String → Nat → Nat → Nat → Nat
  | [], _, _, total => total - 1
  | l :: rest, i, base, total =>
    if strTrim l ≠ "" ∧ ¬ strStartsWith (strTrim l) "#" ∧ get_indent_level l ≤ base
    then i - 1
    else pyFindEndAux rest (i + 1) base total

/-- src/parser/python.rs:112, `find_function_end` (0-based). -/
def py_find_function_end (lines : List String) (start : Nat) : Nat :=
  if start ≥ lines.length then lines.length - 1
  else
    pyFindEndAux (lines.drop (start + 1)) (start + 1)
      (get_indent_level (lines.getD start "")) lines.length

/-- Whitespace class of the regex `\s`. -/
def pyWs (c : Char) : Bool := c.isWhitespace

def isIdentStart (c : Char) : Bool := c.isAlpha || c = '_'

def isIdentChar (c : Char) : Bool := c.isAlphanum || c = '_'

/-- Deterministic matcher for the anchored Python signature regex
`^\s*def\s+([a-zA-Z_][a-zA-Z0-9_]*)\s*\(([^)]*)\)`
(src/parser/python.rs:83); returns the two capture groups. -/
def matchDefLine (l : List Char) : Option (String × String) :=
  match l.dropWhile pyWs with
  | 'd' :: 'e' :: 'f' :: r1 =>
    match r1 with
    | c :: _ =>
      if pyWs c then
        match r1.dropWhile pyWs with
        | c0 :: r3 =>
          if isIdentStart c0 then
            let ident := c0 :: r3.takeWhile isIdentChar
            match (r3.dropWhile isIdentChar).dropWhile pyWs with
            | '(' :: r5 =>
              if (r5.dropWhile (fun c => c ≠ ')')) = [] then none
              else some (String.mk ident, String.mk (r5.takeWhile (fun c => c ≠ ')')))
            | _ => none
          else none
        | [] => none
      else none
    | [] => none
  | _ => none

/-- Keyword patterns of the Python complexity heuristic
(src/parser/python.rs:144). -/
def pyPatterns : List String :=
  [" if ", " elif ", " else:", " for ", " while ", " except ", " finally:",
   " and ", " or "]

/-- src/parser/python.rs:144, `calculate_complexity`. -/
def py_calculate_complexity (function_lines : List String) : Nat :=
  1 + (function_lines.map (fun l =>
    (pyPatterns.map (fun p => lineMatchCount l p)).sum)).sum

/-- src/parser/python.rs:81, `detect_functions`. -/
def py_detect_functions (lines : List String) : List FunctionUnit :=
  (List.range lines.length).filterMap (fun i =>
    match matchDefLine (lines.getD i "").toList with
    | none => none
    | some np =>
      let params := if strTrim np.2 = "" then 0 else (strSplitOnChar ',' np.2).length
      let e := py_find_function_end lines i
      some { name := np.1, start_line := i + 1, end_line := e + 1,
             complexity := py_calculate_complexity ((lines.drop i).take (e - i + 1)),
             parameters := params })

/-- Fraction of units whose line count lies in the band (lo, hi]
(the quantity the function-length metric actually uses, because its
three counters sit in mutually exclusive `else if` branches). -/
def flBandRatio (functions : List FunctionUnit) (lo hi : Nat) : ℚ :=
  ((functions.countP (fun f => decide (lo < lineCount f ∧ lineCount f ≤ hi))) : ℚ)
    / (functions.length : ℚ)

/-- Fraction of units whose line count exceeds `lo` with no upper bound. -/
def flTailRatio (functions : List FunctionUnit) (lo : Nat) : ℚ :=
  ((functions.countP (fun f => decide (lo < lineCount f))) : ℚ)
    / (functions.length : ℚ)

/-- Claim C5's reading of `r40`, `r70`, `r120`: the fraction of units
whose line count exceeds the threshold (cumulative). -/
def claimExceedRatio (functions : List FunctionUnit) (t : Nat) : ℚ :=
  ((functions.countP (fun f => decide (t < lineCount f))) : ℚ)
    / (functions.length : ℚ)

/-- Claim C5's score formula
`min(1, 0.3·r40 + 0.5·r70 + 0.8·r120)` over cumulative ratios. -/
def flClaimScore (functions : List FunctionUnit) : ℚ :=
  min 1 (0.3 * claimExceedRatio functions 40 + 0.5 * claimExceedRatio functions 70
    + 0.8 * claimExceedRatio functions 120)

/-- Claim C4's score formula `max(0, 0.9 − 5·(ratio·100))`. -/
def crClaimScore (ratio : ℚ) : ℚ := max 0 (0.9 - 5 * (ratio * 100))

/-- One comment line in a thousand: a model refuting claim C4's formula. -/
def crCexModel : BaseParseResult := ⟨[], 1, 1000, .javascript⟩

/-- A model with zero total lines. -/
def crZeroModel : BaseParseResult := ⟨[], 0, 0, .javascript⟩

/-- A single 130-line unit: a model refuting claim C5's cumulative
reading of the ratios. -/
def flCexModel : BaseParseResult := ⟨[⟨"alpha", 1, 130, 1, 0⟩], 0, 130, .javascript⟩

/-- Two tiny, trivial, parameterless 5-line units with different names:
identical buckets and exact line count, yet similarity 0.3. -/
def dupCexModel : BaseParseResult :=
  ⟨[⟨"aaa", 1, 5, 1, 0⟩, ⟨"abc", 6, 10, 1, 0⟩], 0, 10, .javascript⟩

/-- Two large, complex, parameterised 70-line units with different
names: identical signature with similarity capped at 1. -/
def dupWitModel : BaseParseResult :=
  ⟨[⟨"alpha", 1, 70, 15, 2⟩, ⟨"beta", 71, 140, 15, 2⟩], 0, 140, .javascript⟩

/-- A per-file metric map with score 1/2 and the factory weights. -/
def constHalfMetrics : MetricName → Option MetricResult :=
  fun n => some ⟨0.5, metricWeight n, "m", []⟩

def fileDataA : FileAnalysisData := ⟨"a.rs", constHalfMetrics, [], 10⟩

def fileDataB : FileAnalysisData := ⟨"b.rs", constHalfMetrics, [], 20⟩

/-- A brace-counted file: signature on source line 2, body with one
`if` and one `for`, depth back to zero on source line 10. -/
def jsSampleLines : List String :=
  ["x", "function foo() \x7b", "  if (a) \x7b", "    b();", "  \x7d",
   "  for (;;) \x7b", "    c();", "  \x7d", "  d();", "\x7d"]

/-- A Python-like file: `def f():`, five indented lines, then a dedent. -/
def pySampleBody : List String := ["  a", "  b", "  c", "  d", "  e"]

lemma ite_gt_one_eq_min (s : ℚ) : (if s > 1 then (1 : ℚ) else s) = min 1 s := by
  split_ifs with h
  · exact (min_eq_left h.le).symm
  · exact (min_eq_right (not_lt.mp h)).symm

lemma ite_lt_zero_eq_max (s : ℚ) : (if s < 0 then (0 : ℚ) else s) = max 0 s := by
  split_ifs with h
  · exact (max_eq_left h.le).symm
  · exact (max_eq_right (not_lt.mp h)).symm

lemma cr_calc_eq_max (r : ℚ) :
    CommentRatioMetric.calculate_score r = max 0 (0.9 - r * 100 * 0.05) := by
  simp only [CommentRatioMetric.calculate_score]
  exact ite_lt_zero_eq_max _

/-- C4 (amended): with `total_lines > 0` the comment-ratio score is
`max(0, 0.9 − 0.05·(ratio·100))` (0.05 per percentage point, i.e.
`0.9 − 5·ratio`), not `0.9 − 5·(ratio·100)`; with `total_lines = 0` the
ratio is taken as 0 and the score is 0.9. -/
theorem comment_ratio_score_amended (pr : BaseParseResult) :
    (0 < pr.total_lines →
      (CommentRatioMetric.analyze pr).score
        = max 0 (0.9 - (pr.comment_lines : ℚ) / (pr.total_lines : ℚ) * 100 * 0.05))
    ∧ (pr.total_lines = 0 → (CommentRatioMetric.analyze pr).score = 0.9) := by
  constructor
  · intro h
    simp only [CommentRatioMetric.analyze, h, if_true, cr_calc_eq_max]
  · intro h
    simp only [CommentRatioMetric.analyze, h, lt_irrefl, if_false, cr_calc_eq_max]
    norm_num

/-- Witness for `comment_ratio_score_amended` at 1 comment line in 1000
total lines, and at a zero-line file. -/
theorem comment_ratio_amended_witness :
    (0 < crCexModel.total_lines
      ∧ (CommentRatioMetric.analyze crCexModel).score
        = max 0 (0.9 - (crCexModel.comment_lines : ℚ) / (crCexModel.total_lines : ℚ) * 100 * 0.05))
    ∧ (crZeroModel.total_lines = 0
      ∧ (CommentRatioMetric.analyze crZeroModel).score = 0.9) :=
  ⟨⟨by decide, (comment_ratio_score_amended crCexModel).1 (by decide)⟩,
   ⟨rfl, (comment_ratio_score_amended crZeroModel).2 rfl⟩⟩

/-- Counterexample to C4 as stated: at 1 comment line in 1000 the code
scores `0.9 − 0.005 = 0.895`, while `max(0, 0.9 − 5·(ratio·100))`
evaluates to `0.4`. -/
theorem comment_ratio_claim_cex :
    ¬ ((CommentRatioMetric.analyze crCexModel).score
        = crClaimScore ((crCexModel.comment_lines : ℚ) / (crCexModel.total_lines : ℚ))) := by
  have h1 : (CommentRatioMetric.analyze crCexModel).score = 179 / 200 := by
    norm_num [CommentRatioMetric.analyze, CommentRatioMetric.calculate_score, crCexModel]
  have h2 : crClaimScore ((crCexModel.comment_lines : ℚ) / (crCexModel.total_lines : ℚ))
      = 2 / 5 := by
    norm_num [crClaimScore, crCexModel]
  rw [h1, h2]
  norm_num

/-- C5 (amended): for a non-empty unit list the function-length score is
`min(1, 0.3·a + 0.5·b + 0.8·c)` where `a`, `b`, `c` are the fractions of
units with line count in (40,70], (70,120] and (120,∞): the code's
`else if` chain buckets exclusively rather than cumulatively. -/
theorem function_length_score_amended (pr : BaseParseResult)
    (h : pr.functions ≠ []) :
    (FunctionLengthMetric.analyze pr).score
      = min 1 (flBandRatio pr.functions 40 70 * 0.3
          + flBandRatio pr.functions 70 120 * 0.5
          + flTailRatio pr.functions 120 * 0.8) := by
  have hne : pr.functions.isEmpty = false := by
    simpa [List.isEmpty_iff] using h
  simp only [FunctionLengthMetric.analyze, hne, Bool.false_eq_true, if_false,
    flBandRatio, flTailRatio, ite_gt_one_eq_min]

/-- Witness for `function_length_score_amended` at a single 130-line
unit (exclusive buckets give `0.8`). -/
theorem function_length_amended_witness :
    flCexModel.functions ≠ []
    ∧ (FunctionLengthMetric.analyze flCexModel).score
      = min 1 (flBandRatio flCexModel.functions 40 70 * 0.3
          + flBandRatio flCexModel.functions 70 120 * 0.5
          + flTailRatio flCexModel.functions 120 * 0.8) :=
  ⟨by decide, function_length_score_amended flCexModel (by decide)⟩

/-- Counterexample to C5 as stated: on a single 130-line unit the code
scores `0.8`, while the cumulative reading `min(1, 0.3+0.5+0.8)` gives
`1`. -/
theorem function_length_claim_cex :
    ¬ ((FunctionLengthMetric.analyze flCexModel).score
        = flClaimScore flCexModel.functions) := by
  have h1 : (FunctionLengthMetric.analyze flCexModel).score = 4 / 5 := by
    norm_num [FunctionLengthMetric.analyze, flCexModel, lineCount,
      List.countP, List.countP.go]
  have h2 : flClaimScore flCexModel.functions = 1 := by
    norm_num [flClaimScore, claimExceedRatio, flCexModel, lineCount,
      List.countP, List.countP.go]
  rw [h1, h2]
  norm_num

/-- C9: a unit model with no functions gets score 0 and no issues from
both the function-length and the duplication metric. -/
theorem empty_functions_zero_scores (cl tl : Nat) (lang : LanguageType) :
    (FunctionLengthMetric.analyze ⟨[], cl, tl, lang⟩).score = 0
    ∧ (FunctionLengthMetric.analyze ⟨[], cl, tl, lang⟩).issues = []
    ∧ (CodeDuplicationMetric.analyze ⟨[], cl, tl, lang⟩).score = 0
    ∧ (CodeDuplicationMetric.analyze ⟨[], cl, tl, lang⟩).issues = [] :=
  ⟨rfl, rfl, rfl, rfl⟩

lemma cc_avg_nonneg (functions : List FunctionUnit) :
    0 ≤ (CyclomaticComplexityMetric.calculate_average_complexity functions).1 := by
  simp only [CyclomaticComplexityMetric.calculate_average_complexity]
  split
  · norm_num
  · apply div_nonneg
    · apply List.sum_nonneg
      intro x hx
      obtain ⟨f, _, rfl⟩ := List.mem_map.mp hx
      positivity
    · positivity

lemma cc_calc_ge (avg : ℚ) (h : 0 ≤ avg) :
    0.4 ≤ CyclomaticComplexityMetric.calculate_score avg := by
  simp only [CyclomaticComplexityMetric.calculate_score]
  refine le_min (by linarith) (by norm_num)

lemma cc_calc_le (avg : ℚ) : CyclomaticComplexityMetric.calculate_score avg ≤ 1 :=
  min_le_right _ _

lemma new_score_ge (s w : ℚ) (d : String) (i : List Issue)
    (h04 : 0.4 ≤ s) (h1 : s ≤ 1) : 0.4 ≤ (MetricResult.new s w d i).score := by
  simp only [MetricResult.new]
  rw [min_eq_left h1]
  exact le_trans h04 (le_max_left _ _)

lemma nm_ratio_nonneg (pr : BaseParseResult) :
    0 ≤ (if ¬ pr.functions.isEmpty then
      ((pr.functions.countP (fun f => NamingConventionMetric.is_bad_name f.name)) : ℚ)
        / (pr.functions.length : ℚ) else 0) := by
  split
  · positivity
  · norm_num

lemma nm_calc_ge (r : ℚ) (h : 0 ≤ r) :
    0.4 ≤ NamingConventionMetric.calculate_score r := by
  simp only [NamingConventionMetric.calculate_score]
  split_ifs with hgt
  · norm_num
  · linarith

lemma st_calc_ge (d : Nat) : 0.4 ≤ StructureAnalysisMetric.calculate_score d := by
  simp only [StructureAnalysisMetric.calculate_score]
  split_ifs with h1 h2 h2
  · norm_num
  · have : (2 : ℚ) ≤ (d : ℚ) := by exact_mod_cast h1
    linarith
  · norm_num
  · norm_num

/-- C10: the cyclomatic-complexity, naming-convention and
structure-analysis metrics never score below 0.4 on any unit model
(their formulas all start from the base 0.4), so a "perfect" badness
score of 0 is unreachable for them. -/
theorem base_scores_at_least_two_fifths (pr : BaseParseResult) :
    0.4 ≤ (CyclomaticComplexityMetric.analyze pr).score
    ∧ 0.4 ≤ (NamingConventionMetric.analyze pr).score
    ∧ 0.4 ≤ (StructureAnalysisMetric.analyze pr).score := by
  refine ⟨?_, ?_, ?_⟩
  · simp only [CyclomaticComplexityMetric.analyze]
    exact new_score_ge _ _ _ _ (cc_calc_ge _ (cc_avg_nonneg _)) (cc_calc_le _)
  · simp only [NamingConventionMetric.analyze]
    exact nm_calc_ge _ (nm_ratio_nonneg pr)
  · simp only [StructureAnalysisMetric.analyze]
    exact st_calc_ge _

lemma new_score_range (s w : ℚ) (d : String) (i : List Issue) :
    0 ≤ (MetricResult.new s w d i).score ∧ (MetricResult.new s w d i).score ≤ 1 := by
  simp only [MetricResult.new]
  exact ⟨le_max_right _ _, max_le (min_le_right _ _) (by norm_num)⟩

lemma ccAnalyze_range (pr : BaseParseResult) :
    0 ≤ (CyclomaticComplexityMetric.analyze pr).score
    ∧ (CyclomaticComplexityMetric.analyze pr).score ≤ 1 :=
  new_score_range _ _ _ _

lemma flAnalyze_range (pr : BaseParseResult) :
    0 ≤ (FunctionLengthMetric.analyze pr).score
    ∧ (FunctionLengthMetric.analyze pr).score ≤ 1 := by
  simp only [FunctionLengthMetric.analyze]
  split
  · exact ⟨le_refl 0, by norm_num⟩
  · constructor
    · show (0 : ℚ) ≤ if _ > 1 then 1 else _
      split_ifs with h
      · norm_num
      · positivity
    · show (if _ > 1 then (1 : ℚ) else _) ≤ 1
      split_ifs with h
      · norm_num
      · exact not_lt.mp h

lemma crAnalyze_range (pr : BaseParseResult) :
    0 ≤ (CommentRatioMetric.analyze pr).score
    ∧ (CommentRatioMetric.analyze pr).score ≤ 1 := by
  have hr : (0 : ℚ) ≤
      (if pr.total_lines > 0 then (pr.comment_lines : ℚ) / (pr.total_lines : ℚ) else 0) := by
    split
    · positivity
    · norm_num
  simp only [CommentRatioMetric.analyze, cr_calc_eq_max]
  refine ⟨le_max_left _ _, max_le (by norm_num) ?_⟩
  nlinarith [hr]

lemma eh_quality_range (f : FunctionUnit) (lang : LanguageType) :
    0 ≤ (analyze_function_error_handling f lang).error_handling_quality
    ∧ (analyze_function_error_handling f lang).error_handling_quality ≤ 1 := by
  cases lang <;>
    simp only [analyze_function_error_handling, analyze_rust_error_handling,
      analyze_go_error_handling, analyze_js_error_handling,
      analyze_python_error_handling, analyze_java_error_handling,
      analyze_c_error_handling] <;>
    constructor <;> first
      | (split_ifs <;> norm_num)
      | norm_num

lemma ehAnalyze_range (pr : BaseParseResult) :
    0 ≤ (ErrorHandlingMetric.analyze pr).score
    ∧ (ErrorHandlingMetric.analyze pr).score ≤ 1 := by
  simp only [ErrorHandlingMetric.analyze]
  split
  · exact ⟨le_refl 0, by norm_num⟩
  · rename_i hne
    have hlen : 0 < pr.functions.length := by
      cases hl : pr.functions with
      | nil => simp [hl] at hne
      | cons a t => simp
    have hlenQ : (0 : ℚ) < (pr.functions.length : ℚ) := by exact_mod_cast hlen
    set scored := pr.functions.map
      (fun f => (f, analyze_function_error_handling f pr.language)) with hscored
    have hq : ∀ q ∈ scored.map (fun fe => fe.2.error_handling_quality),
        0 ≤ q ∧ q ≤ 1 := by
      intro q hqm
      obtain ⟨fe, hfe, rfl⟩ := List.mem_map.mp hqm
      rw [hscored] at hfe
      obtain ⟨f, _, rfl⟩ := List.mem_map.mp hfe
      exact eh_quality_range f pr.language
    have hsum0 : 0 ≤ (scored.map (fun fe => fe.2.error_handling_quality)).sum :=
      List.sum_nonneg (fun q hqm => (hq q hqm).1)
    have hsumlen : (scored.map (fun fe => fe.2.error_handling_quality)).sum
        ≤ (pr.functions.length : ℚ) := by
      have h1 := List.sum_le_card_nsmul
        (scored.map (fun fe => fe.2.error_handling_quality)) 1
        (fun q hqm => (hq q hqm).2)
      simpa [hscored, nsmul_eq_mul] using h1
    have havg : 0 ≤ (scored.map (fun fe => fe.2.error_handling_quality)).sum
          / (pr.functions.length : ℚ)
        ∧ (scored.map (fun fe => fe.2.error_handling_quality)).sum
          / (pr.functions.length : ℚ) ≤ 1 :=
      ⟨div_nonneg hsum0 hlenQ.le, (div_le_one hlenQ).mpr hsumlen⟩
    have hcount : (scored.countP
          (fun fe => fe.2.has_error_potential && !fe.2.has_error_handling) : ℚ)
        ≤ ((max pr.functions.length 1 : Nat) : ℚ) := by
      have h1 : scored.countP
            (fun fe => fe.2.has_error_potential && !fe.2.has_error_handling)
          ≤ scored.length := List.countP_le_length _
      have h2 : scored.length = pr.functions.length := by simp [hscored]
      have h3 : pr.functions.length ≤ max pr.functions.length 1 := le_max_left _ _
      exact_mod_cast le_trans (h2 ▸ h1) h3
    have hmaxpos : (0 : ℚ) < ((max pr.functions.length 1 : Nat) : ℚ) := by
      have : 1 ≤ max pr.functions.length 1 := le_max_right _ _
      exact_mod_cast lt_of_lt_of_le Nat.zero_lt_one this
    have hratio : 0 ≤ (scored.countP
            (fun fe => fe.2.has_error_potential && !fe.2.has_error_handling) : ℚ)
          / ((max pr.functions.length 1 : Nat) : ℚ)
        ∧ (scored.countP
            (fun fe => fe.2.has_error_potential && !fe.2.has_error_handling) : ℚ)
          / ((max pr.functions.length 1 : Nat) : ℚ) ≤ 1 :=
      ⟨by positivity, (div_le_one hmaxpos).mpr hcount⟩
    simp only [hne, not_false_iff, if_true]
    constructor
    · have h1 := havg.2
      have h2 := hratio.1
      nlinarith [havg.1, hratio.2]
    · nlinarith [havg.1, havg.2, hratio.1, hratio.2]

lemma nm_calc_range (r : ℚ) (h : 0 ≤ r) :
    0 ≤ NamingConventionMetric.calculate_score r
    ∧ NamingConventionMetric.calculate_score r ≤ 1 := by
  simp only [NamingConventionMetric.calculate_score]
  constructor
  · split_ifs with hgt
    · norm_num
    · linarith
  · split_ifs with hgt
    · norm_num
    · exact not_lt.mp hgt

lemma nmAnalyze_range (pr : BaseParseResult) :
    0 ≤ (NamingConventionMetric.analyze pr).score
    ∧ (NamingConventionMetric.analyze pr).score ≤ 1 := by
  simp only [NamingConventionMetric.analyze]
  exact nm_calc_range _ (nm_ratio_nonneg pr)

lemma similarity_nonneg (p : String) : 0 ≤ calculate_similarity_score p := by
  simp only [calculate_similarity_score]
  split
  · exact le_refl 0
  · refine le_min ?_ (by norm_num)
    have h1 : (0 : ℚ) ≤
        (if ((strSplitOnChar ':' p).getD 0 "") = "tiny"
            ∨ ((strSplitOnChar ':' p).getD 0 "") = "small"
         then 0.2 else if ((strSplitOnChar ':' p).getD 0 "") = "medium"
         then 0.3 else 0.4) := by
      split_ifs <;> norm_num
    have h2 : (0 : ℚ) ≤
        (if ((strSplitOnChar ':' p).getD 1 "") = "trivial" then (0.1 : ℚ)
         else if ((strSplitOnChar ':' p).getD 1 "") = "simple" then 0.2
         else if ((strSplitOnChar ':' p).getD 1 "") = "moderate" then 0.3
         else if ((strSplitOnChar ':' p).getD 1 "") = "complex"
            ∨ ((strSplitOnChar ':' p).getD 1 "") = "very_complex" then 0.4
         else 0) := by
      split_ifs <;> norm_num
    have h3 : (0 : ℚ) ≤
        (if ((strSplitOnChar ':' p).getD 2 "") ≠ "no_params" then (0.2 : ℚ) else 0) := by
      split_ifs <;> norm_num
    have h4 : (0 : ℚ) ≤ (match rustParseNat ((strSplitOnChar ':' p).getD 3 "") with
        | some lines => if lines > 20 then (0.2 : ℚ) else if lines > 10 then 0.1 else 0
        | none => 0) := by
      split
      · split_ifs <;> norm_num
      · norm_num
    linarith

lemma groupScoreContribution_nonneg (p : String) (g : List FunctionUnit) :
    0 ≤ groupScoreContribution p g := by
  have hs := similarity_nonneg p
  simp only [groupScoreContribution]
  split_ifs
  · positivity
  · positivity
  · norm_num
  · norm_num

lemma dupAnalyze_range (pr : BaseParseResult) :
    0 ≤ (CodeDuplicationMetric.analyze pr).score
    ∧ (CodeDuplicationMetric.analyze pr).score ≤ 1 := by
  simp only [CodeDuplicationMetric.analyze]
  split
  · exact ⟨le_refl 0, by norm_num⟩
  · constructor
    · refine le_min ?_ (by norm_num)
      have hds : (0 : ℚ) ≤
          ((group_similar_functions pr.functions).map
            (fun g => groupScoreContribution g.1 g.2)).sum
          + ((detect_naming_pattern_duplication pr.functions).map (fun g =>
              if g.2.length > 2 then (0.3 : ℚ) * (g.2.length : ℚ) else 0)).sum
          + (if detect_parameter_duplication pr.functions > 3 then
              (0.2 : ℚ) * (detect_parameter_duplication pr.functions : ℚ) else 0) := by
        refine add_nonneg (add_nonneg ?_ ?_) ?_
        · refine List.sum_nonneg ?_
          intro x hx
          obtain ⟨g, _, rfl⟩ := List.mem_map.mp hx
          exact groupScoreContribution_nonneg _ _
        · refine List.sum_nonneg ?_
          intro x hx
          obtain ⟨g, _, rfl⟩ := List.mem_map.mp hx
          split <;> positivity
        · split <;> positivity
      have hratio : (0 : ℚ) ≤
          (if (pr.functions.map lineCount).sum > 0 then
            (((group_similar_functions pr.functions).map
              (fun g => groupDupLines g.1 g.2)).sum : ℚ)
              / (((pr.functions.map lineCount).sum : Nat) : ℚ)
          else 0) := by
        split <;> positivity
      have hnorm : (0 : ℚ) ≤ min
          ((((group_similar_functions pr.functions).map
              (fun g => groupScoreContribution g.1 g.2)).sum
            + ((detect_naming_pattern_duplication pr.functions).map (fun g =>
                if g.2.length > 2 then (0.3 : ℚ) * (g.2.length : ℚ) else 0)).sum
            + (if detect_parameter_duplication pr.functions > 3 then
                (0.2 : ℚ) * (detect_parameter_duplication pr.functions : ℚ) else 0))
            / (pr.functions.length : ℚ)) 1 := by
        refine le_min ?_ (by norm_num)
        positivity
      exact add_nonneg (by nlinarith [hratio]) (by nlinarith [hnorm])
    · exact min_le_right _ _

lemma st_calc_le (d : Nat) : StructureAnalysisMetric.calculate_score d ≤ 1 := by
  simp only [StructureAnalysisMetric.calculate_score]
  split_ifs with h1 h2 h2
  · norm_num
  · exact not_lt.mp h2
  · norm_num
  · exact not_lt.mp h2

lemma stAnalyze_range (pr : BaseParseResult) :
    0 ≤ (StructureAnalysisMetric.analyze pr).score
    ∧ (StructureAnalysisMetric.analyze pr).score ≤ 1 := by
  simp only [StructureAnalysisMetric.analyze]
  exact ⟨le_trans (by norm_num) (st_calc_ge _), st_calc_le _⟩

/-- C1: for every unit model — including those with zero functions and
zero total lines — each of the seven metrics returns a score in [0,1]. -/
theorem metric_scores_in_unit_interval (pr : BaseParseResult) :
    (0 ≤ (CyclomaticComplexityMetric.analyze pr).score
      ∧ (CyclomaticComplexityMetric.analyze pr).score ≤ 1)
    ∧ (0 ≤ (FunctionLengthMetric.analyze pr).score
      ∧ (FunctionLengthMetric.analyze pr).score ≤ 1)
    ∧ (0 ≤ (CommentRatioMetric.analyze pr).score
      ∧ (CommentRatioMetric.analyze pr).score ≤ 1)
    ∧ (0 ≤ (ErrorHandlingMetric.analyze pr).score
      ∧ (ErrorHandlingMetric.analyze pr).score ≤ 1)
    ∧ (0 ≤ (NamingConventionMetric.analyze pr).score
      ∧ (NamingConventionMetric.analyze pr).score ≤ 1)
    ∧ (0 ≤ (CodeDuplicationMetric.analyze pr).score
      ∧ (CodeDuplicationMetric.analyze pr).score ≤ 1)
    ∧ (0 ≤ (StructureAnalysisMetric.analyze pr).score
      ∧ (StructureAnalysisMetric.analyze pr).score ≤ 1) :=
  ⟨ccAnalyze_range pr, flAnalyze_range pr, crAnalyze_range pr, ehAnalyze_range pr,
   nmAnalyze_range pr, dupAnalyze_range pr, stAnalyze_range pr⟩

lemma filterMap_length_all_some {α β : Type} (f : α → Option β) (l : List α)
    (h : ∀ a ∈ l, (f a).isSome) : (l.filterMap f).length = l.length := by
  induction l with
  | nil => rfl
  | cons a t ih =>
    obtain ⟨b, hb⟩ := Option.isSome_iff_exists.mp (h a (by simp))
    simp [List.filterMap_cons, hb, ih (fun x hx => h x (by simp [hx]))]

lemma cam_const (files : List FileAnalysisData) (n : MetricName) (S w : ℚ)
    (hne : files ≠ [])
    (h : ∀ d ∈ files, ∃ r, d.metrics n = some r ∧ r.score = S ∧ r.weight = w) :
    ∃ r', calculate_average_metrics files n = some r'
      ∧ r'.score = S ∧ r'.weight = w := by
  have hall : ∀ d ∈ files, (d.metrics n).isSome := by
    intro d hd
    obtain ⟨r, hr, _, _⟩ := h d hd
    simp [hr]
  have hlen : (files.filterMap (fun d => d.metrics n)).length = files.length :=
    filterMap_length_all_some _ _ hall
  have hsc : ∀ x ∈ files.filterMap (fun d => d.metrics n), x.score = S := by
    intro x hx
    obtain ⟨d, hd, hdx⟩ := List.mem_filterMap.mp hx
    obtain ⟨r, hr, hrs, _⟩ := h d hd
    rw [hr] at hdx
    cases hdx
    exact hrs
  cases hfm : files.filterMap (fun d => d.metrics n) with
  | nil =>
    exfalso
    rw [hfm] at hlen
    exact hne (List.length_eq_zero.mp hlen.symm)
  | cons r rs =>
    have hrw : r.weight = w := by
      have hrmem : r ∈ files.filterMap (fun d => d.metrics n) := by simp [hfm]
      obtain ⟨d, hd, hdx⟩ := List.mem_filterMap.mp hrmem
      obtain ⟨r0, hr0, _, hw0⟩ := h d hd
      rw [hr0] at hdx
      cases hdx
      exact hw0
    have hlpos : ((r :: rs).length : ℚ) ≠ 0 :=
      Nat.cast_ne_zero.mpr (by simp)
    have hsum : ((r :: rs).map (fun x => x.score)).sum = ((r :: rs).length : ℚ) * S := by
      have hrep : (r :: rs).map (fun x => x.score)
          = List.replicate ((r :: rs).map (fun x => x.score)).length S := by
        apply List.eq_replicate_of_mem
        intro b hb
        obtain ⟨x, hx, rfl⟩ := List.mem_map.mp hb
        exact hsc x (hfm ▸ hx)
      rw [hrep, List.sum_replicate, List.length_map, nsmul_eq_mul]
    refine ⟨⟨((r :: rs).map (fun x => x.score)).sum / (((r :: rs).length : Nat) : ℚ),
      r.weight, r.description, []⟩, ?_, ?_, ?_⟩
    · simp only [calculate_average_metrics, hfm]
    · show ((r :: rs).map (fun x => x.score)).sum / (((r :: rs).length : Nat) : ℚ) = S
      rw [hsum, mul_comm, mul_div_assoc, div_self hlpos, mul_one]
    · exact hrw

lemma entries_const_sums (agg : MetricName → Option MetricResult) (S : ℚ)
    (ns : List MetricName)
    (h : ∀ n ∈ ns, ∃ r, agg n = some r ∧ r.score = S ∧ r.weight = metricWeight n) :
    ((ns.filterMap agg).map (fun r => r.weight)).sum = (ns.map metricWeight).sum
    ∧ ((ns.filterMap agg).map (fun r => r.score * r.weight)).sum
      = S * (ns.map metricWeight).sum := by
  induction ns with
  | nil => simp
  | cons n t ih =>
    obtain ⟨r, hr, hs, hw⟩ := h n (by simp)
    obtain ⟨ih1, ih2⟩ := ih (fun m hm => h m (by simp [hm]))
    constructor
    · simp [List.filterMap_cons, hr, ih1, hw]
    · simp only [List.filterMap_cons, hr, List.map_cons, List.sum_cons, ih2, hs, hw]
      ring

/-- C3: aggregating N ≥ 1 per-file results in which every metric carries
score S (and its constant factory weight) yields a project-level
code_quality_score equal to S: averaging equal scores and re-applying
the weighted average `Σ score·weight / Σ weight` is the identity on S. -/
theorem aggregate_constant_score_identity (files : List FileAnalysisData) (S : ℚ)
    (hne : files ≠ [])
    (h : ∀ d ∈ files, ∀ n, ∃ r, d.metrics n = some r ∧ r.score = S
      ∧ r.weight = metricWeight n) :
    (aggregate_results files).code_quality_score = S := by
  have hagg : ∀ n ∈ MetricName.all, ∃ r',
      calculate_average_metrics files n = some r'
      ∧ r'.score = S ∧ r'.weight = metricWeight n :=
    fun n _ => cam_const files n S (metricWeight n) hne (fun d hd => h d hd n)
  show calculate_score (calculate_average_metrics files) = S
  obtain ⟨h1, h2⟩ := entries_const_sums (calculate_average_metrics files) S
    MetricName.all hagg
  simp only [calculate_score, h1, h2]
  have hws : (MetricName.all.map metricWeight).sum = 113 / 100 := by
    norm_num [MetricName.all, metricWeight]
  rw [hws, if_pos (by norm_num)]
  field_simp

lemma constHalf_fields (n : MetricName) (r : MetricResult)
    (h : constHalfMetrics n = some r) : r.score = 0.5 ∧ r.weight = metricWeight n := by
  simp only [constHalfMetrics, Option.some.injEq] at h
  rw [← h]
  exact ⟨rfl, rfl⟩

/-- Witness for `aggregate_constant_score_identity`: two files whose
seven metrics all score 1/2 aggregate to project score 1/2. -/
theorem aggregate_constant_witness :
    ([fileDataA, fileDataB] : List FileAnalysisData) ≠ []
    ∧ (aggregate_results [fileDataA, fileDataB]).code_quality_score = 0.5 :=
  ⟨by simp,
   aggregate_constant_score_identity [fileDataA, fileDataB] 0.5 (by simp)
    (by
      intro d hd n
      have hm : d.metrics = constHalfMetrics := by
        simp only [List.mem_cons, List.not_mem_nil, or_false] at hd
        rcases hd with rfl | rfl
        · rfl
        · rfl
      refine ⟨⟨0.5, metricWeight n, "m", []⟩, ?_, rfl, rfl⟩
      rw [hm]
      rfl)⟩

lemma cam_pair_congr (l1 l2 : List FileAnalysisData) (hperm : l1.Perm l2)
    (hw : ∀ n, ∀ d1 ∈ l1, ∀ d2 ∈ l1, ∀ r1 r2, d1.metrics n = some r1 →
      d2.metrics n = some r2 → r1.weight = r2.weight) (n : MetricName) :
    (calculate_average_metrics l1 n).map (fun r => (r.score, r.weight))
      = (calculate_average_metrics l2 n).map (fun r => (r.score, r.weight)) := by
  have hp : (l1.filterMap (fun d => d.metrics n)).Perm
      (l2.filterMap (fun d => d.metrics n)) := hperm.filterMap _
  cases h1 : l1.filterMap (fun d => d.metrics n) with
  | nil =>
    have h2 : l2.filterMap (fun d => d.metrics n) = [] := by
      rw [h1] at hp
      exact hp.symm.eq_nil
    simp [calculate_average_metrics, h1, h2]
  | cons r rs =>
    cases h2 : l2.filterMap (fun d => d.metrics n) with
    | nil =>
      rw [h1, h2] at hp
      exact absurd hp.eq_nil (by simp)
    | cons q qs =>
      rw [h1, h2] at hp
      have hsum : ((r :: rs).map (fun x => x.score)).sum
          = ((q :: qs).map (fun x => x.score)).sum := (hp.map _).sum_eq
      have hlen : (r :: rs).length = (q :: qs).length := hp.length_eq
      have hr1 : r ∈ l1.filterMap (fun d => d.metrics n) := by rw [h1]; simp
      have hq1 : q ∈ l1.filterMap (fun d => d.metrics n) := by
        rw [h1]
        exact hp.symm.subset (by simp)
      obtain ⟨d1, hd1, hdr⟩ := List.mem_filterMap.mp hr1
      obtain ⟨d2, hd2, hdq⟩ := List.mem_filterMap.mp hq1
      have hweq : r.weight = q.weight := hw n d1 hd1 d2 hd2 r q hdr hdq
      have hlenQ : (((r :: rs).length : Nat) : ℚ) = (((q :: qs).length : Nat) : ℚ) := by
        exact_mod_cast hlen
      simp only [calculate_average_metrics, h1, h2, Option.map_some',
        Option.some.injEq, Prod.mk.injEq]
      exact ⟨by rw [hsum, hlenQ], hweq⟩

lemma entries_sums_congr (m1 m2 : MetricName → Option MetricResult)
    (h : ∀ n, (m1 n).map (fun r => (r.score, r.weight))
      = (m2 n).map (fun r => (r.score, r.weight)))
    (ns : List MetricName) :
    ((ns.filterMap m1).map (fun r => r.weight)).sum
      = ((ns.filterMap m2).map (fun r => r.weight)).sum
    ∧ ((ns.filterMap m1).map (fun r => r.score * r.weight)).sum
      = ((ns.filterMap m2).map (fun r => r.score * r.weight)).sum := by
  induction ns with
  | nil => simp
  | cons n t ih =>
    have hn := h n
    cases hm1 : m1 n with
    | none =>
      rw [hm1] at hn
      have hm2 : m2 n = none := Option.map_eq_none'.mp hn.symm
      simpa [List.filterMap_cons, hm1, hm2] using ih
    | some r1 =>
      rw [hm1] at hn
      obtain ⟨r2, hm2, hpair⟩ := Option.map_eq_some'.mp hn.symm
      have hs : r2.score = r1.score ∧ r2.weight = r1.weight := by
        have h1 := congrArg Prod.fst hpair
        have h2 := congrArg Prod.snd hpair
        exact ⟨h1, h2⟩
      constructor
      · simp [List.filterMap_cons, hm1, hm2, ih.1, hs.2]
      · simp [List.filterMap_cons, hm1, hm2, ih.2, hs.1, hs.2]

lemma calculate_score_congr (m1 m2 : MetricName → Option MetricResult)
    (h : ∀ n, (m1 n).map (fun r => (r.score, r.weight))
      = (m2 n).map (fun r => (r.score, r.weight))) :
    calculate_score m1 = calculate_score m2 := by
  obtain ⟨h1, h2⟩ := entries_sums_congr m1 m2 h MetricName.all
  simp only [calculate_score, h1, h2]

lemma option_map_score_of_pair {o1 o2 : Option MetricResult}
    (h : o1.map (fun r => (r.score, r.weight)) = o2.map (fun r => (r.score, r.weight))) :
    o1.map (fun r => r.score) = o2.map (fun r => r.score) := by
  cases o1 <;> cases o2 <;> simp_all

/-- C2: directory aggregation is invariant under permutation of the
per-file results (any completion order of the parallel workers): the
project score, the averaged per-metric scores, total_files, total_lines
and is_empty coincide, and files_analyzed agree as multisets. The
hypothesis that all files carry the same weight per metric name holds
for every output of the metric engine, whose weights are constants. -/
theorem aggregate_perm_invariant (l1 l2 : List FileAnalysisData)
    (hperm : l1.Perm l2)
    (hw : ∀ n, ∀ d1 ∈ l1, ∀ d2 ∈ l1, ∀ r1 r2, d1.metrics n = some r1 →
      d2.metrics n = some r2 → r1.weight = r2.weight) :
    (aggregate_results l1).code_quality_score = (aggregate_results l2).code_quality_score
    ∧ (∀ n, ((aggregate_results l1).metrics n).map (fun r => r.score)
        = ((aggregate_results l2).metrics n).map (fun r => r.score))
    ∧ (aggregate_results l1).total_files = (aggregate_results l2).total_files
    ∧ (aggregate_results l1).total_lines = (aggregate_results l2).total_lines
    ∧ (aggregate_results l1).is_empty = (aggregate_results l2).is_empty
    ∧ (aggregate_results l1).files_analyzed.Perm
        (aggregate_results l2).files_analyzed := by
  have hpair := cam_pair_congr l1 l2 hperm hw
  refine ⟨calculate_score_congr _ _ hpair, ?_, ?_, ?_, rfl, ?_⟩
  · intro n
    exact option_map_score_of_pair (hpair n)
  · show (l1.map _).length = (l2.map _).length
    simp [hperm.length_eq]
  · show (l1.map (fun d => d.lines)).sum = (l2.map (fun d => d.lines)).sum
    exact (hperm.map _).sum_eq
  · exact hperm.map _

/-- Witness for `aggregate_perm_invariant`: swapping two files leaves
the project score and totals unchanged. -/
theorem aggregate_perm_witness :
    ([fileDataA, fileDataB] : List FileAnalysisData).Perm [fileDataB, fileDataA]
    ∧ (aggregate_results [fileDataA, fileDataB]).code_quality_score
        = (aggregate_results [fileDataB, fileDataA]).code_quality_score
    ∧ (aggregate_results [fileDataA, fileDataB]).total_lines
        = (aggregate_results [fileDataB, fileDataA]).total_lines
    ∧ (aggregate_results [fileDataA, fileDataB]).files_analyzed.Perm
        (aggregate_results [fileDataB, fileDataA]).files_analyzed := by
  have hp : ([fileDataA, fileDataB] : List FileAnalysisData).Perm
      [fileDataB, fileDataA] := List.Perm.swap _ _ _
  have hw : ∀ n, ∀ d1 ∈ ([fileDataA, fileDataB] : List FileAnalysisData),
      ∀ d2 ∈ ([fileDataA, fileDataB] : List FileAnalysisData),
      ∀ r1 r2, d1.metrics n = some r1 → d2.metrics n = some r2 →
      r1.weight = r2.weight := by
    intro n d1 hd1 d2 hd2 r1 r2 h1 h2
    have hm1 : d1.metrics = constHalfMetrics := by
      simp only [List.mem_cons, List.not_mem_nil, or_false] at hd1
      rcases hd1 with rfl | rfl
      · rfl
      · rfl
    have hm2 : d2.metrics = constHalfMetrics := by
      simp only [List.mem_cons, List.not_mem_nil, or_false] at hd2
      rcases hd2 with rfl | rfl
      · rfl
      · rfl
    rw [hm1] at h1
    rw [hm2] at h2
    rw [(constHalf_fields n r1 h1).2, (constHalf_fields n r2 h2).2]
  have ht := aggregate_perm_invariant [fileDataA, fileDataB] [fileDataB, fileDataA] hp hw
  exact ⟨hp, ht.1, ht.2.2.2.1, ht.2.2.2.2.2⟩

lemma two_mem_two_le_length {α : Type} (l : List α) (a b : α) (ha : a ∈ l)
    (hb : b ∈ l) (hne : a ≠ b) : 2 ≤ l.length := by
  cases l with
  | nil => cases ha
  | cons x t =>
    rcases List.mem_cons.mp ha with rfl | hat
    · rcases List.mem_cons.mp hb with heq | hbt
      · exact absurd heq.symm hne
      · have ht : 0 < t.length := List.length_pos_of_mem hbt
        simp only [List.length_cons]
        omega
    · have ht : 0 < t.length := List.length_pos_of_mem hat
      simp only [List.length_cons]
      omega

/-- C6 (amended): two functions with identical size bucket, complexity
bucket, parameter bucket, exact line count AND name-style pattern (the
grouping key also includes the name pattern) are grouped together, and
the pair is reported as highly similar when the group's categorical
similarity score exceeds 0.7 — which holds for some bucket combinations
(e.g. large/complex/with-parameters/long) but not all. -/
theorem duplication_high_similarity_amended (pr : BaseParseResult)
    (f g : FunctionUnit) (hf : f ∈ pr.functions) (hg : g ∈ pr.functions)
    (hname : f.name ≠ g.name)
    (hpat : extract_function_pattern f = extract_function_pattern g)
    (hsim : 0.7 < calculate_similarity_score (extract_function_pattern f)) :
    ∃ names, Issue.dupHighSimilar names
        (calculate_similarity_score (extract_function_pattern f))
        ∈ (CodeDuplicationMetric.analyze pr).issues
      ∧ f.name ∈ names ∧ g.name ∈ names := by
  have hfg : f ≠ g := by
    intro he
    exact hname (by rw [he])
  have hlen2 : 2 ≤ pr.functions.length := two_mem_two_le_length _ f g hf hg hfg
  have hnotlt : ¬ (pr.functions.length < 2) := not_lt.mpr hlen2
  have hfm : f ∈ pr.functions.filter
      (fun x => extract_function_pattern x = extract_function_pattern f) :=
    List.mem_filter.mpr ⟨hf, by simp⟩
  have hgm : g ∈ pr.functions.filter
      (fun x => extract_function_pattern x = extract_function_pattern f) :=
    List.mem_filter.mpr ⟨hg, by simp [hpat]⟩
  have hmem2 : 1 < (pr.functions.filter
      (fun x => extract_function_pattern x = extract_function_pattern f)).length :=
    two_mem_two_le_length _ f g hfm hgm hfg
  have hpdedup : extract_function_pattern f
      ∈ (pr.functions.map extract_function_pattern).dedup :=
    List.mem_dedup.mpr (List.mem_map_of_mem _ hf)
  have hgrp : (extract_function_pattern f,
      pr.functions.filter (fun x => extract_function_pattern x = extract_function_pattern f))
      ∈ group_similar_functions pr.functions := by
    simp only [group_similar_functions]
    exact List.mem_map.mpr ⟨extract_function_pattern f, hpdedup, rfl⟩
  have hissue : groupIssue (extract_function_pattern f)
      (pr.functions.filter (fun x => extract_function_pattern x = extract_function_pattern f))
      = some (Issue.dupHighSimilar
          ((sortByName (pr.functions.filter
            (fun x => extract_function_pattern x = extract_function_pattern f))).map
            (fun x => x.name))
          (calculate_similarity_score (extract_function_pattern f))) := by
    simp only [groupIssue]
    rw [if_pos hmem2, if_pos hsim]
  refine ⟨(sortByName (pr.functions.filter
      (fun x => extract_function_pattern x = extract_function_pattern f))).map
      (fun x => x.name), ?_, ?_, ?_⟩
  · show _ ∈ (CodeDuplicationMetric.analyze pr).issues
    simp only [CodeDuplicationMetric.analyze, hnotlt, if_false, List.mem_append]
    exact Or.inl (Or.inl (List.mem_filterMap.mpr ⟨_, hgrp, hissue⟩))
  · exact List.mem_map_of_mem _
      ((List.perm_insertionSort _ _).mem_iff.mpr hfm)
  · exact List.mem_map_of_mem _
      ((List.perm_insertionSort _ _).mem_iff.mpr hgm)

/-- Counterexample to C6 as stated: two 5-line, complexity-1,
parameterless functions named `aaa` and `abc` share all four claimed
signature components, yet their group's similarity score is 0.3 ≤ 0.7
and the metric reports nothing at all. -/
theorem duplication_claim_cex :
    calculate_similarity_score
        (extract_function_pattern (⟨"aaa", 1, 5, 1, 0⟩ : FunctionUnit)) ≤ 0.7
    ∧ (CodeDuplicationMetric.analyze dupCexModel).issues = [] := by
  have hpat : extract_function_pattern (⟨"aaa", 1, 5, 1, 0⟩ : FunctionUnit)
      = "tiny:trivial:no_params:5:flat" := rfl
  have hsplit : strSplitOnChar ':' "tiny:trivial:no_params:5:flat"
      = ["tiny", "trivial", "no_params", "5", "flat"] := rfl
  have hparse : rustParseNat "5" = some 5 := rfl
  have hsval : calculate_similarity_score "tiny:trivial:no_params:5:flat" = 3 / 10 := by
    norm_num +decide [calculate_similarity_score, hsplit, hparse, min_def]
  have hgroups : group_similar_functions dupCexModel.functions
      = [("tiny:trivial:no_params:5:flat", dupCexModel.functions)] := rfl
  have hnaming : detect_naming_pattern_duplication dupCexModel.functions = [] := rfl
  have hparam : detect_parameter_duplication dupCexModel.functions = 2 := rfl
  constructor
  · rw [hpat, hsval]
    norm_num
  · simp only [CodeDuplicationMetric.analyze]
    rw [if_neg (by norm_num [dupCexModel])]
    simp only [hgroups, hnaming, hparam, groupIssue, hsval, List.filterMap_cons,
      List.filterMap_nil]
    norm_num [dupCexModel]

/-- Witness for `duplication_high_similarity_amended`: two 70-line,
complexity-15, 2-parameter functions `alpha` and `beta` are reported as
highly similar. -/
theorem duplication_amended_witness :
    (0.7 : ℚ) < calculate_similarity_score
        (extract_function_pattern (⟨"alpha", 1, 70, 15, 2⟩ : FunctionUnit))
    ∧ ∃ names, Issue.dupHighSimilar names
          (calculate_similarity_score
            (extract_function_pattern (⟨"alpha", 1, 70, 15, 2⟩ : FunctionUnit)))
          ∈ (CodeDuplicationMetric.analyze dupWitModel).issues
        ∧ "alpha" ∈ names ∧ "beta" ∈ names := by
  have hpat : extract_function_pattern (⟨"alpha", 1, 70, 15, 2⟩ : FunctionUnit)
      = "large:complex:few_params:70:flat" := rfl
  have hsplit : strSplitOnChar ':' "large:complex:few_params:70:flat"
      = ["large", "complex", "few_params", "70", "flat"] := rfl
  have hparse : rustParseNat "70" = some 70 := rfl
  have hsim : (0.7 : ℚ) < calculate_similarity_score
      (extract_function_pattern (⟨"alpha", 1, 70, 15, 2⟩ : FunctionUnit)) := by
    rw [hpat]
    norm_num +decide [calculate_similarity_score, hsplit, hparse, min_def]
  exact ⟨hsim,
    duplication_high_similarity_amended dupWitModel
      ⟨"alpha", 1, 70, 15, 2⟩ ⟨"beta", 71, 140, 15, 2⟩
      (by simp [dupWitModel]) (by simp [dupWitModel]) (by decide) rfl hsim⟩

lemma list_sum_map_add {α : Type} (l : List α) (f g : α → Nat) :
    (l.map (fun x => f x + g x)).sum = (l.map f).sum + (l.map g).sum := by
  induction l with
  | nil => rfl
  | cons a t ih =>
    simp only [List.map_cons, List.sum_cons, ih]
    omega

lemma lineBraceScan_found (cs : List Char) (d : Int) :
    (specLineScan cs (some d) = none ∧ lineBraceScan cs d true = none)
    ∨ (∃ d', specLineScan cs (some d) = some (some d')
        ∧ lineBraceScan cs d true = some (d', true)) := by
  induction cs generalizing d with
  | nil => exact Or.inr ⟨d, rfl, rfl⟩
  | cons c cs ih =>
    by_cases h1 : c = '{'
    · simp only [specLineScan, lineBraceScan, h1, if_pos]
      exact ih (d + 1)
    · by_cases h2 : c = '}'
      · by_cases h3 : d - 1 = 0
        · left
          constructor
          · simp [specLineScan, h1, h2, h3]
          · simp [lineBraceScan, h1, h2, h3]
        · have := ih (d - 1)
          simpa [specLineScan, lineBraceScan, h1, h2, h3] using this
      · have := ih d
        simpa [specLineScan, lineBraceScan, h1, h2] using this

lemma specCloseAux_found (ls : List (List Char)) (i : Nat) (d : Int) :
    findEndAux ls i d true = specCloseAux ls i (some d) := by
  induction ls generalizing i d with
  | nil => rfl
  | cons l rest ih =>
    rcases lineBraceScan_found l d with ⟨h1, h2⟩ | ⟨d', h1, h2⟩
    · simp [findEndAux, specCloseAux, h1, h2]
    · simp only [findEndAux, specCloseAux, h1, h2]
      exact ih (i + 1) d'

lemma lineBraceScan_notfound (cs rest : List Char)
    (h : firstBraceIsOpen (cs ++ rest) = true) :
    (specLineScan cs none = none ∧ lineBraceScan cs 0 false = none)
    ∨ (∃ d', specLineScan cs none = some (some d')
        ∧ lineBraceScan cs 0 false = some (d', true))
    ∨ (specLineScan cs none = some none ∧ lineBraceScan cs 0 false = some (0, false)
        ∧ firstBraceIsOpen rest = true) := by
  induction cs with
  | nil =>
    right; right
    exact ⟨rfl, rfl, by simpa using h⟩
  | cons c cs ih =>
    by_cases h1 : c = '{'
    · rcases lineBraceScan_found cs 1 with ⟨ha, hb⟩ | ⟨d', ha, hb⟩
      · left
        constructor
        · simpa [specLineScan, h1] using ha
        · simpa [lineBraceScan, h1] using hb
      · right; left
        refine ⟨d', ?_, ?_⟩
        · simpa [specLineScan, h1] using ha
        · simpa [lineBraceScan, h1] using hb
    · by_cases h2 : c = '}'
      · exfalso
        simp [firstBraceIsOpen, h2] at h
      · have h' : firstBraceIsOpen (cs ++ rest) = true := by
          simpa [firstBraceIsOpen, h1, h2] using h
        have := ih h'
        simpa [specLineScan, lineBraceScan, h1, h2] using this

lemma specCloseAux_notfound (ls : List (List Char)) (i : Nat)
    (h : firstBraceIsOpen ls.flatten = true) :
    findEndAux ls i 0 false = specCloseAux ls i none := by
  induction ls generalizing i with
  | nil => rfl
  | cons l rest ih =>
    have h' : firstBraceIsOpen (l ++ rest.flatten) = true := by
      simpa [List.flatten_cons] using h
    rcases lineBraceScan_notfound l rest.flatten h' with
      ⟨h1, h2⟩ | ⟨d', h1, h2⟩ | ⟨h1, h2, h3⟩
    · simp [findEndAux, specCloseAux, h1, h2]
    · simp only [findEndAux, specCloseAux, h1, h2]
      exact specCloseAux_found rest (i + 1) d'
    · simp only [findEndAux, specCloseAux, h1, h2]
      exact ih (i + 1) h3

/-- The code's brace-tracking end finder agrees with the spec's
"depth returns to zero" description whenever the first brace character
of the stream is `{`. -/
lemma find_function_end_of_spec (lines : List String) (start i : Nat)
    (hopen : firstBraceIsOpen ((lines.drop start).map String.toList).flatten = true)
    (hclose : specBraceCloseLine lines start = some i) :
    find_function_end lines start = i := by
  unfold find_function_end
  rw [specCloseAux_notfound _ _ hopen]
  unfold specBraceCloseLine at hclose
  rw [hclose]

/-- C7: in a brace-counted file whose signature sits on source line 2,
where no `}` precedes the body's opening `{` and the brace depth first
returns to zero on source line 10, and whose span contains exactly one
counted ` if ` and one counted ` for ` occurrence and no other counted
keyword or operator occurrence, the extracted unit spans source lines
2-10 with complexity 1 + 1 + 1 = 3. -/
theorem js_unit_end_and_complexity (lines : List String) (nm : String)
    (hopen : firstBraceIsOpen ((lines.drop 1).map String.toList).flatten = true)
    (hclose : specBraceCloseLine lines 1 = some 9)
    (hif : (((lines.drop 1).take 9).map (fun l => lineMatchCount l " if ")).sum = 1)
    (hfor : (((lines.drop 1).take 9).map (fun l => lineMatchCount l " for ")).sum = 1)
    (hothers : ∀ p ∈ [" else ", " while ", " switch ", " case ", " catch ", "&&", "||", "?"],
      (((lines.drop 1).take 9).map (fun l => lineMatchCount l p)).sum = 0) :
    jsExtractUnitAt lines 1 nm = ⟨nm, 2, 10, 3, 0⟩ := by
  have hend : find_function_end lines 1 = 9 :=
    find_function_end_of_spec lines 1 9 hopen hclose
  have helse := hothers " else " (by simp)
  have hwhile := hothers " while " (by simp)
  have hswitch := hothers " switch " (by simp)
  have hcase := hothers " case " (by simp)
  have hcatch := hothers " catch " (by simp)
  have hand := hothers "&&" (by simp)
  have hor := hothers "||" (by simp)
  have hq := hothers "?" (by simp)
  simp only [jsExtractUnitAt, hend]
  have hc : js_calculate_complexity ((lines.drop 1).take (9 - 1 + 1)) = 3 := by
    have h911 : (9 : Nat) - 1 + 1 = 9 := rfl
    rw [h911]
    simp only [js_calculate_complexity, jsKeywords, jsOperators, List.map_cons,
      List.map_nil, List.sum_cons, List.sum_nil, add_zero]
    simp only [list_sum_map_add]
    rw [show ((" " ++ "if" ++ " " : String)) = " if " by simp,
      show ((" " ++ "else" ++ " " : String)) = " else " by simp,
      show ((" " ++ "for" ++ " " : String)) = " for " by simp,
      show ((" " ++ "while" ++ " " : String)) = " while " by simp,
      show ((" " ++ "switch" ++ " " : String)) = " switch " by simp,
      show ((" " ++ "case" ++ " " : String)) = " case " by simp,
      show ((" " ++ "catch" ++ " " : String)) = " catch " by simp]
    rw [hif, hfor, helse, hwhile, hswitch, hcase, hcatch, hand, hor, hq]
  rw [hc]

/-- Witness for `js_unit_end_and_complexity` on a ten-line sample file:
the unit runs from source line 2 to 10 with complexity 3. -/
theorem js_unit_witness :
    specBraceCloseLine jsSampleLines 1 = some 9
    ∧ jsExtractUnitAt jsSampleLines 1 "foo"
      = ⟨"foo", 2, 10, 3, 0⟩ :=
  ⟨rfl, js_unit_end_and_complexity jsSampleLines "foo" rfl rfl rfl rfl
    (by intro p hp; fin_cases hp <;> rfl)⟩

lemma pyFindEndAux_all_skip (ls : List String) (i total : Nat)
    (h : ∀ l ∈ ls, ¬ (strTrim l ≠ "" ∧ ¬ strStartsWith (strTrim l) "#"
        ∧ get_indent_level l ≤ 0)) :
    pyFindEndAux ls i 0 total = total - 1 := by
  induction ls generalizing i with
  | nil => rfl
  | cons l rest ih =>
    simp only [pyFindEndAux]
    rw [if_neg (h l (by simp))]
    exact ih (i + 1) (fun x hx => h x (by simp [hx]))

lemma py_skip_of_indent (l : String) (hl : 0 < get_indent_level l) :
    ¬ (strTrim l ≠ "" ∧ ¬ strStartsWith (strTrim l) "#" ∧ get_indent_level l ≤ 0) :=
  fun hc => by omega

/-- C8: a Python-like file whose first line is `def f():` at indentation
0 followed by five body lines of strictly positive indentation and then
a non-blank non-comment line at indentation 0 yields a first unit
spanning source lines 1-6 (the dedent line is excluded); and when no
dedented line exists at all, the unit extends to the last line of the
file. -/
theorem py_unit_end_line :
    (∀ (b1 b2 b3 b4 b5 d : String) (rest : List String),
      0 < get_indent_level b1 → 0 < get_indent_level b2 → 0 < get_indent_level b3 →
      0 < get_indent_level b4 → 0 < get_indent_level b5 →
      strTrim d ≠ "" → ¬ strStartsWith (strTrim d) "#" → get_indent_level d = 0 →
      ∃ c, (py_detect_functions
          ("def f():" :: b1 :: b2 :: b3 :: b4 :: b5 :: d :: rest)).head?
        = some ⟨"f", 1, 6, c, 0⟩)
    ∧ (∀ body : List String,
      (∀ l ∈ body, ¬ (strTrim l ≠ "" ∧ ¬ strStartsWith (strTrim l) "#"
          ∧ get_indent_level l ≤ 0)) →
      ∃ c, (py_detect_functions ("def f():" :: body)).head?
        = some ⟨"f", 1, body.length + 1, c, 0⟩) := by
  constructor
  · intro b1 b2 b3 b4 b5 d rest h1 h2 h3 h4 h5 hd1 hd2 hd3
    have hend : py_find_function_end
        ("def f():" :: b1 :: b2 :: b3 :: b4 :: b5 :: d :: rest) 0 = 5 := by
      simp only [py_find_function_end, List.length_cons]
      rw [if_neg (by omega)]
      show pyFindEndAux (b1 :: b2 :: b3 :: b4 :: b5 :: d :: rest) 1
        (get_indent_level "def f():") _ = 5
      have hbase : get_indent_level "def f():" = 0 := rfl
      rw [hbase]
      simp only [pyFindEndAux]
      rw [if_neg (py_skip_of_indent b1 h1), if_neg (py_skip_of_indent b2 h2),
        if_neg (py_skip_of_indent b3 h3), if_neg (py_skip_of_indent b4 h4),
        if_neg (py_skip_of_indent b5 h5), if_pos ⟨hd1, hd2, by omega⟩]
    refine ⟨py_calculate_complexity
      ((("def f():" :: b1 :: b2 :: b3 :: b4 :: b5 :: d :: rest).drop 0).take (5 - 0 + 1)), ?_⟩
    simp only [py_detect_functions, List.length_cons]
    rw [List.range_succ_eq_map, List.filterMap_cons]
    have hm : matchDefLine (("def f():" :: b1 :: b2 :: b3 :: b4 :: b5 :: d :: rest).getD 0 "").toList
        = some ("f", "") := rfl
    rw [hm]
    simp only [hend, List.head?_cons, Option.some.injEq]
    rfl
  · intro body hbody
    have hend : py_find_function_end ("def f():" :: body) 0 = body.length := by
      simp only [py_find_function_end, List.length_cons]
      rw [if_neg (by omega)]
      show pyFindEndAux body 1 (get_indent_level "def f():") (body.length + 1) = body.length
      have hbase : get_indent_level "def f():" = 0 := rfl
      rw [hbase, pyFindEndAux_all_skip body 1 (body.length + 1) hbody]
      omega
    refine ⟨py_calculate_complexity
      ((("def f():" :: body).drop 0).take (body.length - 0 + 1)), ?_⟩
    simp only [py_detect_functions, List.length_cons]
    rw [List.range_succ_eq_map, List.filterMap_cons]
    have hm : matchDefLine (("def f():" :: body).getD 0 "").toList
        = some ("f", "") := rfl
    rw [hm]
    simp only [hend, List.head?_cons, Option.some.injEq]
    rfl

/-- Witness for `py_unit_end_line`: `def f():` with five two-space
indented lines and a dedent at line 7 ends at line 6; with an indented
body and no dedent it ends at the last line. -/
theorem py_unit_witness :
    (0 < get_indent_level "  a"
      ∧ ∃ c, (py_detect_functions
          ("def f():" :: "  a" :: "  b" :: "  c" :: "  d" :: "  e" :: "x = 1" :: [])).head?
        = some ⟨"f", 1, 6, c, 0⟩)
    ∧ ∃ c, (py_detect_functions ("def f():" :: ["  a", "  b"])).head?
        = some ⟨"f", 1, 3, c, 0⟩ :=
  ⟨⟨by decide,
    py_unit_end_line.1 "  a" "  b" "  c" "  d" "  e" "x = 1" [] (by decide) (by decide)
      (by decide) (by decide) (by decide) (by decide) (by decide) (by decide)⟩,
   py_unit_end_line.2 ["  a", "  b"] (by decide)⟩
